import Mathlib

/-!
Verification of the Bernoulli traffic source
(`src/model/bernoulli_packet_socket_client.cc`) and the delay-decomposition
analytics of `src/examples/single-bss-sld.cc`, as a shallow embedding.

Timestamps and probabilities are modelled with exact rationals `ℚ`
(the C++ code uses `double`); the logarithm-based inter-arrival sampling is
modelled over `ℝ` with `Real.log`, mirroring `std::log` on doubles.
-/

namespace BernoulliModel

/-! ## Delay decomposition (single-bss-sld.cc, lines 689-768)

One success record per delivered packet, as produced by
`WifiTxStatsHelper::GetSuccessInfoMap` and consumed in `main`.
A bucket is the record list of one (node, link) pair. -/

/-- One success record: `record.m_enqueueMs` / `record.m_dequeueMs`
(single-bss-sld.cc lines 702-703). -/
structure DelayRecord where
  m_enqueueMs : ℚ
  m_dequeueMs : ℚ
deriving DecidableEq

/-- `enqueueTimeMap[node][link]`: the enqueue timestamps of a bucket, in
record order (line 702). -/
def enqueueTimes (rs : List DelayRecord) : List ℚ :=
  rs.map DelayRecord.m_enqueueMs

/-- `dequeueTimeMap[node][link]`: the dequeue timestamps of a bucket, in
record order (line 703). -/
def dequeueTimes (rs : List DelayRecord) : List ℚ :=
  rs.map DelayRecord.m_dequeueMs

/-- `holTimeMap[node][link]` as built by the loop at lines 705-720:
index 0 gets `enqueueTime[0]`, index `i > 0` gets
`max(enqueueTime[i], dequeueTime[i-1])`. -/
def buildHolTime (enq deq : List ℚ) : List ℚ :=
  (List.range enq.length).map fun i =>
    if i = 0 then enq.getD i 0
    else max (enq.getD i 0) (deq.getD (i - 1) 0)

/-- The `erase(begin())` trimming applied to all three series
(lines 721-727). -/
def trimFirst (xs : List ℚ) : List ℚ := xs.drop 1

/-- `totalQueuingDelayPerNodeLink[node][link]`: the accumulation loop at
lines 746-750, over the trimmed series. -/
def totalQueuingDelay (enq deq : List ℚ) : ℚ :=
  ((List.range (trimFirst enq).length).map fun i =>
    (trimFirst (buildHolTime enq deq)).getD i 0 - (trimFirst enq).getD i 0).sum

/-- `totalAccessDelayPerNodeLink[node][link]`: the accumulation loop at
lines 751-753, over the trimmed series. -/
def totalAccessDelay (enq deq : List ℚ) : ℚ :=
  ((List.range (trimFirst enq).length).map fun i =>
    (trimFirst deq).getD i 0 - (trimFirst (buildHolTime enq deq)).getD i 0).sum

/-- `meanQueuingDelayPerNodeLink[node][link] = total / (numSuccess - 1)`
(lines 761-763); `sc` is `finalResults.m_numSuccessPerNodeLink[node][link]`.
Note: no guard for `sc ≤ 1`; in `ℚ` a zero denominator yields 0 where the
`double` code yields NaN/Inf. -/
def meanQueuingDelay (enq deq : List ℚ) (sc : ℕ) : ℚ :=
  totalQueuingDelay enq deq / ((sc : ℚ) - 1)

/-- `meanAccessDelayPerNodeLink[node][link] = total / (numSuccess - 1)`
(lines 764-766). -/
def meanAccessDelay (enq deq : List ℚ) (sc : ℕ) : ℚ :=
  totalAccessDelay enq deq / ((sc : ℚ) - 1)

/-! ## Cross-flow aggregation (single-bss-sld.cc, lines 812-880)

`numSldSuccessPerLink` counts every success record of the group's nodes
(lines 814-838); `sldQueDelayPerLinkTotal` / `sldAccDelayPerLinkTotal`
sum the per-bucket delay totals of the group's nodes (lines 850-878);
the group mean divides the summed totals by the summed success counts
(lines 879-880). -/

/-- The `sldQueDelayPerLinkTotal[l] += item.second` accumulation
(lines 852-878), given the per-bucket totals of the group. -/
def sldDelayTotal (perBucketTotals : List ℚ) : ℚ :=
  perBucketTotals.foldl (· + ·) 0

/-- The `numSldSuccessPerLink[l] += 1` per-record count (lines 814-838),
given the per-bucket success counts of the group. -/
def sldNumSuccess (perBucketCounts : List ℕ) : ℕ :=
  perBucketCounts.foldl (· + ·) 0

/-- `sldMeanQueDelayLink1 = sldQueDelayPerLinkTotal[0] /
numSldSuccessPerLink[0]` (lines 879-880): summed totals over summed
success counts. -/
def sldMeanDelay (perBucketTotals : List ℚ) (perBucketCounts : List ℕ) : ℚ :=
  sldDelayTotal perBucketTotals / (sldNumSuccess perBucketCounts : ℚ)

/-- Modelled from the spec: the naive "mean of per-bucket means"
aggregation that §4.4 step 6 says must NOT be used; stated only to be
compared against `sldMeanDelay`. Each bucket is (total delay, success
count). -/
def meanOfMeans (buckets : List (ℚ × ℕ)) : ℚ :=
  (buckets.map fun b => b.1 / (b.2 : ℚ)).sum / (buckets.length : ℚ)

/-! ## Arrival process (bernoulli_packet_socket_client.cc, lines 225-231)

`Send` draws `uniform = m_uniformRngForInterval->GetValue()`, asserts
`m_bernoulliPr < 1`, computes
`numInterval = std::floor(std::log(uniform) / std::log(1 - m_bernoulliPr)) + 1`,
asserts `numInterval > 0`, and returns `interval = numInterval * m_timeSlot`. -/

/-- `numInterval = floor(log(uniform) / log(1 - p)) + 1` (line 229),
as an integer; `p` is `m_bernoulliPr`, `u` the uniform draw. -/
noncomputable def numInterval (p u : ℝ) : ℤ :=
  ⌊Real.log u / Real.log (1 - p)⌋ + 1

/-- `interval = numInterval * m_timeSlot` (line 231); `T` is `m_timeSlot`. -/
noncomputable def nextInterval (T p u : ℝ) : ℝ :=
  (numInterval p u : ℝ) * T

/-- The interval computation with its two `NS_ASSERT` checks
(lines 228 and 230) made explicit: `none` models an assertion failure. -/
noncomputable def sendInterval (T p u : ℝ) : Option ℝ :=
  if p < 1 then
    if 0 < numInterval p u then some (nextInterval T p u) else none
  else none

/-! ## Traffic source state machine
(bernoulli_packet_socket_client.cc, lines 153-237)

The client state, with the discrete-event scheduler abstracted to a
single armed-event flag (`m_sendEvent` holds at most one pending `Send`).
The interval RNG is modelled as the list of remaining uniform draws;
each `Send` consumes exactly one (line 227), regardless of the transmit
outcome. -/

/-- Application lifecycle phase: `Idle → Running → Stopped`,
managed by the `ns3::Application` framework around `StartApplication` /
`StopApplication`; nothing in `Send` touches it. -/
inductive Phase where
  | Idle
  | Running
  | Stopped
deriving DecidableEq

/-- The client's state: `m_sent`, whether `m_sendEvent` holds a pending
(armed, uncancelled) `Send`, whether the socket is open, the lifecycle
phase, the number of `m_txTrace` success emissions, and the remaining
interval-RNG draws. -/
structure ClientState where
  sent : ℕ
  sendArmed : Bool
  socketOpen : Bool
  phase : Phase
  txTrace : ℕ
  intervalStream : List ℚ
deriving DecidableEq

/-- A freshly constructed client (constructor, lines 102-115):
`m_sent = 0`, `m_sendEvent = EventId()` (nothing armed), no socket. -/
def initState (draws : List ℚ) : ClientState :=
  { sent := 0
    sendArmed := false
    socketOpen := false
    phase := Phase.Idle
    txTrace := 0
    intervalStream := draws }

/-- `StartApplication` (lines 153-175): opens/connects the socket and
arms the first `Send` via `Simulator::ScheduleNow`. -/
def startApp (s : ClientState) : ClientState :=
  { s with socketOpen := true, sendArmed := true, phase := Phase.Running }

/-- `Send` (lines 185-237) with `m_maxPackets = m`: emits the packet
(`m_txTrace` only on transport success, lines 211-222), increments
`m_sent` unconditionally (line 223), consumes one interval draw
(line 227), and re-arms iff `(m_sent < m_maxPackets) || (m_maxPackets == 0)`
(lines 233-236). -/
def sendStep (m : ℕ) (success : Bool) (s : ClientState) : ClientState :=
  let sent := s.sent + 1
  { s with
    txTrace := if success then s.txTrace + 1 else s.txTrace
    sent := sent
    intervalStream := s.intervalStream.drop 1
    sendArmed := decide (sent < m) || decide (m = 0) }

/-- `StopApplication` (lines 177-183): `Simulator::Cancel(m_sendEvent)`
(nothing armed afterwards; a no-op if nothing was armed) and
`m_socket->Close()`; the framework moves the application to `Stopped`. -/
def stopApp (s : ClientState) : ClientState :=
  { s with sendArmed := false, socketOpen := false, phase := Phase.Stopped }

/-- Scheduler-level step relation: a pending `Send` event can fire only
while armed (`Simulator` only runs uncancelled events; `Send` itself
asserts `m_sendEvent.IsExpired()` on entry, line 189), and `Stop` can be
invoked at any time. -/
inductive Step (m : ℕ) : ClientState → ClientState → Prop where
  | fire (s : ClientState) (success : Bool) (h : s.sendArmed = true) :
      Step m s (sendStep m success s)
  | stop (s : ClientState) : Step m s (stopApp s)

/-- Run `n` scheduler slots from state `s`: in each slot the pending
`Send` fires if one is armed (transport always succeeding), otherwise
nothing happens. -/
def fireSends (m : ℕ) (s : ClientState) : ℕ → ClientState
  | 0 => s
  | n + 1 => fireSends m (if s.sendArmed then sendStep m true s else s) n

/-! ## Priority (TID) selection
(bernoulli_packet_socket_client.cc, lines 137-145, 159-171, 196-209)

`Send` touches the socket priority only when `m_optionalTid != m_priority`;
in that branch it draws one value from `m_uniformRngForTid` and sets the
optional TID iff the draw is `< m_optionalTidPr`. -/

/-- The TID-selection step of `Send` (lines 196-209): given the socket's
current priority and the remaining TID-RNG stream, returns the socket's
priority afterwards and the remaining stream. When
`m_optionalTid != m_priority` one draw is consumed and the socket is set;
otherwise nothing is drawn and nothing is set. -/
def sendTidStep (priority optionalTid : ℕ) (optionalTidPr : ℚ)
    (sockPriority : ℕ) (stream : List ℚ) : ℕ × List ℚ :=
  if optionalTid ≠ priority then
    match stream with
    | [] => (sockPriority, [])
    | v :: rest => (if v < optionalTidPr then optionalTid else priority, rest)
  else (sockPriority, stream)

/-- Socket-priority calls made by the attribute setter `SetPriority`
(lines 137-145): it calls `m_socket->SetPriority` only `if (m_socket)`;
at configuration time the socket is null (line 106). -/
def attributeSetPriorityCalls (socketExists : Bool) (priority : ℕ) : List ℕ :=
  if socketExists then [priority] else []

/-- Socket-priority calls made by `StartApplication` (lines 167-170):
`if (m_priority) { m_socket->SetPriority(m_priority); }`. -/
def startSetPriorityCalls (priority : ℕ) : List ℕ :=
  if priority ≠ 0 then [priority] else []

/-- Socket-priority calls made by one `Send` (lines 196-209), given the
TID draw `v` used in the unequal branch. -/
def sendSetPriorityCalls (priority optionalTid : ℕ) (optionalTidPr v : ℚ) :
    List ℕ :=
  if optionalTid ≠ priority then
    [if v < optionalTidPr then optionalTid else priority]
  else []

/-- All socket `SetPriority` calls over a client lifecycle: attribute
configuration (socket still null), then `StartApplication`, then one
`Send` per TID draw in `draws`. -/
def clientSetPriorityTrace (priority optionalTid : ℕ) (optionalTidPr : ℚ)
    (draws : List ℚ) : List ℕ :=
  attributeSetPriorityCalls false priority
    ++ startSetPriorityCalls priority
    ++ (draws.map fun v =>
          sendSetPriorityCalls priority optionalTid optionalTidPr v).flatten

/-! ## Helper lemmas -/

theorem getD_map_range (f : ℕ → ℚ) {i n : ℕ} (h : i < n) (d : ℚ) :
    ((List.range n).map f).getD i d = f i := by
  have hs : ((List.range n).map f).get? i = some (f i) := by
    rw [List.get?_map, List.get?_range h]; rfl
  show (((List.range n).map f).get? i).getD d = f i
  rw [hs]; rfl

theorem getD_drop_one (l : List ℚ) (i : ℕ) (d : ℚ) :
    (l.drop 1).getD i d = l.getD (1 + i) d := by
  show ((l.drop 1).get? i).getD d = (l.get? (1 + i)).getD d
  rw [List.get?_drop]

theorem foldl_add_rat (l : List ℚ) : ∀ a : ℚ, l.foldl (· + ·) a = a + l.sum := by
  induction l with
  | nil => intro a; simp
  | cons x xs ih => intro a; simp [List.foldl_cons, ih, List.sum_cons]; ring

theorem foldl_add_nat (l : List ℕ) : ∀ a : ℕ, l.foldl (· + ·) a = a + l.sum := by
  induction l with
  | nil => intro a; simp
  | cons x xs ih => intro a; simp [List.foldl_cons, ih, List.sum_cons]; omega

theorem one_le_numInterval {p u : ℝ} (hp0 : 0 < p) (hp1 : p < 1)
    (hu0 : 0 < u) (hu1 : u < 1) : 1 ≤ numInterval p u := by
  have hlu : Real.log u < 0 := Real.log_neg hu0 hu1
  have hlp : Real.log (1 - p) < 0 := Real.log_neg (by linarith) (by linarith)
  have hx : 0 < Real.log u / Real.log (1 - p) := div_pos_of_neg_of_neg hlu hlp
  have hfl : (0 : ℤ) ≤ ⌊Real.log u / Real.log (1 - p)⌋ := Int.floor_nonneg.mpr hx.le
  unfold numInterval
  omega

theorem totalQueuingDelay_eq (enq deq : List ℚ) :
    totalQueuingDelay enq deq
      = ((List.range (enq.length - 1)).map fun i =>
          (buildHolTime enq deq).getD (i + 1) 0 - enq.getD (i + 1) 0).sum := by
  unfold totalQueuingDelay trimFirst
  rw [List.length_drop]
  congr 1
  refine List.map_congr_left ?_
  intro i _
  rw [getD_drop_one, getD_drop_one, Nat.add_comm 1 i]

theorem totalAccessDelay_eq (enq deq : List ℚ) :
    totalAccessDelay enq deq
      = ((List.range (enq.length - 1)).map fun i =>
          deq.getD (i + 1) 0 - (buildHolTime enq deq).getD (i + 1) 0).sum := by
  unfold totalAccessDelay trimFirst
  rw [List.length_drop]
  congr 1
  refine List.map_congr_left ?_
  intro i _
  rw [getD_drop_one, getD_drop_one, Nat.add_comm 1 i]

theorem fireSends_add (m : ℕ) (s : ClientState) (a b : ℕ) :
    fireSends m s (a + b) = fireSends m (fireSends m s a) b := by
  induction a generalizing s with
  | zero => rw [Nat.zero_add]; rfl
  | succ a ih =>
      have h1 : a + 1 + b = (a + b) + 1 := by omega
      rw [h1]
      simp only [fireSends]
      exact ih _

theorem fireSends_stuck (m : ℕ) (s : ClientState) (h : s.sendArmed = false) :
    ∀ n, fireSends m s n = s := by
  intro n
  induction n with
  | zero => rfl
  | succ n ih => simp only [fireSends, h]; exact ih

/-! ## Claims -/

/-- C1: For every (flow, link) bucket with at least one record, the
head-of-line series built by the code satisfies
`holTime[0] = enqueueTime[0]` and
`holTime[i] = max(enqueueTime[i], dequeueTime[i-1])` for every `0 < i < N`;
after the first element of the enqueue, dequeue and holTime series is
dropped, the per-bucket mean queuing (resp. access) delay equals the sum
over the trimmed series of `holTime[i] - enqueueTime[i]`
(resp. `dequeueTime[i] - holTime[i]`) divided by `successCount - 1`. -/
theorem C1_hol_time_and_bucket_means (rs : List DelayRecord) (sc : ℕ)
    (hN : 0 < rs.length) :
    (buildHolTime (enqueueTimes rs) (dequeueTimes rs)).getD 0 0
        = (enqueueTimes rs).getD 0 0
    ∧ (∀ i, 0 < i → i < rs.length →
        (buildHolTime (enqueueTimes rs) (dequeueTimes rs)).getD i 0
          = max ((enqueueTimes rs).getD i 0) ((dequeueTimes rs).getD (i - 1) 0))
    ∧ meanQueuingDelay (enqueueTimes rs) (dequeueTimes rs) sc
        = ((List.range (rs.length - 1)).map fun i =>
            (buildHolTime (enqueueTimes rs) (dequeueTimes rs)).getD (i + 1) 0
              - (enqueueTimes rs).getD (i + 1) 0).sum / ((sc : ℚ) - 1)
    ∧ meanAccessDelay (enqueueTimes rs) (dequeueTimes rs) sc
        = ((List.range (rs.length - 1)).map fun i =>
            (dequeueTimes rs).getD (i + 1) 0
              - (buildHolTime (enqueueTimes rs) (dequeueTimes rs)).getD (i + 1) 0).sum
            / ((sc : ℚ) - 1) := by
  have hlen : (enqueueTimes rs).length = rs.length := List.length_map _ _
  refine ⟨?_, ?_, ?_, ?_⟩
  · unfold buildHolTime
    rw [getD_map_range _ (by omega) 0]
    simp
  · intro i hi0 hiN
    unfold buildHolTime
    rw [getD_map_range _ (by omega) 0, if_neg (by omega)]
  · unfold meanQueuingDelay
    rw [totalQueuingDelay_eq, hlen]
  · unfold meanAccessDelay
    rw [totalAccessDelay_eq, hlen]

/-- Witness for C1 at the concrete bucket
`[(enqueue 0, dequeue 2), (enqueue 1, dequeue 6)]` with `successCount = 2`. -/
theorem C1_hol_time_and_bucket_means_witness :
    0 < ([⟨0, 2⟩, ⟨1, 6⟩] : List DelayRecord).length
    ∧ ((buildHolTime (enqueueTimes [⟨0, 2⟩, ⟨1, 6⟩])
          (dequeueTimes [⟨0, 2⟩, ⟨1, 6⟩])).getD 0 0
        = (enqueueTimes [⟨0, 2⟩, ⟨1, 6⟩]).getD 0 0
    ∧ (∀ i, 0 < i → i < ([⟨0, 2⟩, ⟨1, 6⟩] : List DelayRecord).length →
        (buildHolTime (enqueueTimes [⟨0, 2⟩, ⟨1, 6⟩])
            (dequeueTimes [⟨0, 2⟩, ⟨1, 6⟩])).getD i 0
          = max ((enqueueTimes [⟨0, 2⟩, ⟨1, 6⟩]).getD i 0)
              ((dequeueTimes [⟨0, 2⟩, ⟨1, 6⟩]).getD (i - 1) 0))
    ∧ meanQueuingDelay (enqueueTimes [⟨0, 2⟩, ⟨1, 6⟩])
          (dequeueTimes [⟨0, 2⟩, ⟨1, 6⟩]) 2
        = ((List.range (([⟨0, 2⟩, ⟨1, 6⟩] : List DelayRecord).length - 1)).map
            fun i =>
            (buildHolTime (enqueueTimes [⟨0, 2⟩, ⟨1, 6⟩])
                (dequeueTimes [⟨0, 2⟩, ⟨1, 6⟩])).getD (i + 1) 0
              - (enqueueTimes [⟨0, 2⟩, ⟨1, 6⟩]).getD (i + 1) 0).sum
            / (((2 : ℕ) : ℚ) - 1)
    ∧ meanAccessDelay (enqueueTimes [⟨0, 2⟩, ⟨1, 6⟩])
          (dequeueTimes [⟨0, 2⟩, ⟨1, 6⟩]) 2
        = ((List.range (([⟨0, 2⟩, ⟨1, 6⟩] : List DelayRecord).length - 1)).map
            fun i =>
            (dequeueTimes [⟨0, 2⟩, ⟨1, 6⟩]).getD (i + 1) 0
              - (buildHolTime (enqueueTimes [⟨0, 2⟩, ⟨1, 6⟩])
                  (dequeueTimes [⟨0, 2⟩, ⟨1, 6⟩])).getD (i + 1) 0).sum
            / (((2 : ℕ) : ℚ) - 1)) :=
  ⟨by decide, C1_hol_time_and_bucket_means [⟨0, 2⟩, ⟨1, 6⟩] 2 (by decide)⟩

/-- C2: Cross-flow aggregation divides the summed per-bucket delay totals
by the summed per-bucket success counts (the weighted form); on buckets
`(totalDelay 10, successCount 5)` and `(totalDelay 30, successCount 15)`
it yields `40 / 20 = 2`; and it is not the arithmetic mean of per-bucket
means, from which it differs e.g. on buckets `(10, 2)` and `(30, 15)`. -/
theorem C2_weighted_cross_flow_aggregation :
    (∀ (totals : List ℚ) (counts : List ℕ),
        sldMeanDelay totals counts = totals.sum / ((counts.sum : ℕ) : ℚ))
    ∧ sldMeanDelay [10, 30] [5, 15] = 2
    ∧ sldMeanDelay [10, 30] [2, 15] ≠ meanOfMeans [(10, 2), (30, 15)] := by
  refine ⟨?_, ?_, ?_⟩
  · intro totals counts
    unfold sldMeanDelay sldDelayTotal sldNumSuccess
    rw [foldl_add_rat, foldl_add_nat]
    simp
  · norm_num [sldMeanDelay, sldDelayTotal, sldNumSuccess]
  · norm_num [sldMeanDelay, sldDelayTotal, sldNumSuccess, meanOfMeans]

/-- C8 (code evidence): at a bucket holding a single success record with
`successCount = 1`, the code divides the (empty) trimmed totals by
`successCount - 1 = 0` with no guard; in the exact-arithmetic model this
produces the silent junk value `0` (on `double`s, NaN) — there is no
explicit "undefined" result in the computation at all. -/
theorem C8_single_success_divides_by_zero :
    meanQueuingDelay (enqueueTimes [⟨0, 2⟩]) (dequeueTimes [⟨0, 2⟩]) 1 = 0
    ∧ meanAccessDelay (enqueueTimes [⟨0, 2⟩]) (dequeueTimes [⟨0, 2⟩]) 1 = 0
    ∧ ((1 : ℕ) : ℚ) - 1 = 0 := by
  refine ⟨?_, ?_, by norm_num⟩ <;>
  simp [meanQueuingDelay, meanAccessDelay, totalQueuingDelay, totalAccessDelay,
    trimFirst, buildHolTime, enqueueTimes, dequeueTimes]

/-- C3: For every positive time slot `T`, every `p` with `0 < p < 1` and
every uniform draw `u ∈ (0,1)`, the next interval equals `k * T` where
`k = ⌊log u / log (1 - p)⌋ + 1` is an integer with `k ≥ 1`, so the
returned interval is a positive integer multiple of the time slot. -/
theorem C3_interval_is_positive_multiple_of_slot (T p u : ℝ) (hT : 0 < T)
    (hp0 : 0 < p) (hp1 : p < 1) (hu0 : 0 < u) (hu1 : u < 1) :
    numInterval p u = ⌊Real.log u / Real.log (1 - p)⌋ + 1
    ∧ 1 ≤ numInterval p u
    ∧ nextInterval T p u = (numInterval p u : ℝ) * T
    ∧ ∃ k : ℤ, 1 ≤ k ∧ nextInterval T p u = (k : ℝ) * T
        ∧ 0 < nextInterval T p u := by
  have hk := one_le_numInterval hp0 hp1 hu0 hu1
  have hkr : (1 : ℝ) ≤ (numInterval p u : ℝ) := by exact_mod_cast hk
  have hpos : 0 < nextInterval T p u := by
    unfold nextInterval
    exact mul_pos (by linarith) hT
  exact ⟨rfl, hk, rfl, numInterval p u, hk, rfl, hpos⟩

/-- Witness for C3 at `T = 9`, `p = 1/2`, `u = 1/2`. -/
theorem C3_interval_witness :
    (0 : ℝ) < 9 ∧ (0 : ℝ) < 1 / 2 ∧ (1 / 2 : ℝ) < 1
    ∧ (numInterval (1 / 2) (1 / 2) = ⌊Real.log (1 / 2) / Real.log (1 - 1 / 2)⌋ + 1
    ∧ 1 ≤ numInterval (1 / 2) (1 / 2)
    ∧ nextInterval 9 (1 / 2) (1 / 2) = (numInterval (1 / 2) (1 / 2) : ℝ) * 9
    ∧ ∃ k : ℤ, 1 ≤ k ∧ nextInterval 9 (1 / 2) (1 / 2) = (k : ℝ) * 9
        ∧ 0 < nextInterval 9 (1 / 2) (1 / 2)) :=
  ⟨by norm_num, by norm_num, by norm_num,
    C3_interval_is_positive_multiple_of_slot 9 (1 / 2) (1 / 2) (by norm_num)
      (by norm_num) (by norm_num) (by norm_num) (by norm_num)⟩

/-- C9: For `0 < p` and a uniform draw `u ∈ (0,1)`, the interval
computation completes (both `NS_ASSERT`s pass) if and only if `p < 1`:
it fails whenever `p ≥ 1`, and under `p < 1` the assertion branch is
unreachable. -/
theorem C9_interval_asserts_iff_p_lt_one (T p u : ℝ) (hp0 : 0 < p)
    (hu0 : 0 < u) (hu1 : u < 1) :
    (sendInterval T p u).isSome = true ↔ p < 1 := by
  unfold sendInterval
  by_cases hp : p < 1
  · have hk := one_le_numInterval hp0 hp hu0 hu1
    rw [if_pos hp, if_pos (by omega)]
    simp [hp]
  · rw [if_neg hp]
    simp [hp]

/-- Witness for C9 at `T = 9`, `p = 1/2`, `u = 1/3`. -/
theorem C9_interval_asserts_witness :
    (0 : ℝ) < 1 / 2 ∧ (0 : ℝ) < 1 / 3 ∧ (1 / 3 : ℝ) < 1
    ∧ ((sendInterval 9 (1 / 2) (1 / 3)).isSome = true ↔ (1 / 2 : ℝ) < 1) :=
  ⟨by norm_num, by norm_num, by norm_num,
    C9_interval_asserts_iff_p_lt_one 9 (1 / 2) (1 / 3) (by norm_num)
      (by norm_num) (by norm_num)⟩

/-- C4: When the optional TID equals the primary priority, the
TID-selection step of `Send` is decided before any random draw: the RNG
stream is left untouched (no sample consumed) and the socket keeps the
primary priority, for every value of `optionalTidPr` including 1;
otherwise one sample `v` is drawn and the optional TID is used iff
`v < optionalTidPr`, else the primary. -/
theorem C4_priority_selection (priority optionalTid sockPriority : ℕ)
    (optionalTidPr v : ℚ) (rest : List ℚ) (h : optionalTid ≠ priority) :
    sendTidStep priority priority optionalTidPr sockPriority (v :: rest)
        = (sockPriority, v :: rest)
    ∧ sendTidStep priority priority optionalTidPr priority (v :: rest)
        = (priority, v :: rest)
    ∧ sendTidStep priority optionalTid optionalTidPr sockPriority (v :: rest)
        = ((if v < optionalTidPr then optionalTid else priority), rest) := by
  refine ⟨by simp [sendTidStep], by simp [sendTidStep], ?_⟩
  simp [sendTidStep, h]

/-- Witness for C4 at `priority = 0`, `optionalTid = 1`,
`optionalTidPr = 1`, draw `v = 1/2`. -/
theorem C4_priority_selection_witness :
    (1 : ℕ) ≠ 0
    ∧ (sendTidStep 0 0 1 5 (1 / 2 :: []) = (5, 1 / 2 :: [])
    ∧ sendTidStep 0 0 1 0 (1 / 2 :: []) = (0, 1 / 2 :: [])
    ∧ sendTidStep 0 1 1 5 (1 / 2 :: [])
        = ((if (1 / 2 : ℚ) < 1 then 1 else 0), [])) :=
  ⟨by decide, C4_priority_selection 0 1 5 1 (1 / 2) [] (by decide)⟩

/-- C5: After each `Send`, the next `Send` is armed iff
`maxPackets = 0` or the (incremented) sent count is below `maxPackets`;
with `maxPackets = 3` the client sends exactly 3 packets, then schedules
no further sends while remaining in `Running` (not `Stopped`). -/
theorem C5_max_packets_quiescent_still_running (m : ℕ) (success : Bool)
    (s : ClientState) (n : ℕ) (h : 3 ≤ n) :
    ((sendStep m success s).sendArmed = true
        ↔ (m = 0 ∨ (sendStep m success s).sent < m))
    ∧ (fireSends 3 (startApp (initState [])) n).sent = 3
    ∧ (fireSends 3 (startApp (initState [])) n).sendArmed = false
    ∧ (fireSends 3 (startApp (initState [])) n).phase = Phase.Running := by
  obtain ⟨k, rfl⟩ := Nat.exists_eq_add_of_le h
  have h3 : fireSends 3 (startApp (initState [])) 3
      = { sent := 3, sendArmed := false, socketOpen := true,
          phase := Phase.Running, txTrace := 3, intervalStream := [] } := by
    decide
  rw [fireSends_add, h3, fireSends_stuck _ _ rfl]
  refine ⟨?_, rfl, rfl, rfl⟩
  simp [sendStep, or_comm]

/-- Witness for C5 at `m = 3`, success, the fresh client, `n = 5`. -/
theorem C5_max_packets_witness :
    3 ≤ 5
    ∧ (((sendStep 3 true (initState [])).sendArmed = true
        ↔ (3 = 0 ∨ (sendStep 3 true (initState [])).sent < 3))
    ∧ (fireSends 3 (startApp (initState [])) 5).sent = 3
    ∧ (fireSends 3 (startApp (initState [])) 5).sendArmed = false
    ∧ (fireSends 3 (startApp (initState [])) 5).phase = Phase.Running) :=
  ⟨by decide, C5_max_packets_quiescent_still_running 3 true (initState []) 5
    (by decide)⟩

/-- C6: Every `Send` increments the sent counter by exactly one whether
the transport send succeeds or fails, and the failure case leaves the
scheduling state (armed flag, interval-RNG stream) and the rest of the
client state identical to the success case; only the success trace
differs. -/
theorem C6_send_counts_and_schedules_regardless_of_outcome
    (m : ℕ) (s : ClientState) :
    (∀ success, (sendStep m success s).sent = s.sent + 1)
    ∧ (sendStep m true s).sendArmed = (sendStep m false s).sendArmed
    ∧ (sendStep m true s).intervalStream = (sendStep m false s).intervalStream
    ∧ (sendStep m true s).sent = (sendStep m false s).sent
    ∧ (sendStep m true s).phase = (sendStep m false s).phase
    ∧ (sendStep m true s).socketOpen = (sendStep m false s).socketOpen :=
  ⟨fun _ => rfl, rfl, rfl, rfl, rfl, rfl⟩

/-- C7: `Stop` leaves no armed send and releases the socket, a second
`Stop` is a no-op (`stopApp` is idempotent), and from a stopped client
the only possible scheduler step is another stop — a `Send` can never
fire because the pending event was cancelled. -/
theorem C7_stop_cancels_pending_and_is_idempotent (m : ℕ)
    (s t : ClientState) (h : Step m (stopApp s) t) :
    (stopApp s).sendArmed = false
    ∧ (stopApp s).socketOpen = false
    ∧ stopApp (stopApp s) = stopApp s
    ∧ t = stopApp (stopApp s) := by
  refine ⟨rfl, rfl, rfl, ?_⟩
  cases h with
  | fire success harm => simp [stopApp] at harm
  | stop => rfl

/-- Witness for C7: stopping a freshly stopped client again. -/
theorem C7_stop_witness :
    Step 0 (stopApp (initState [])) (stopApp (stopApp (initState [])))
    ∧ ((stopApp (initState [])).sendArmed = false
    ∧ (stopApp (initState [])).socketOpen = false
    ∧ stopApp (stopApp (initState [])) = stopApp (initState [])
    ∧ stopApp (stopApp (initState []))
        = stopApp (stopApp (initState []))) :=
  ⟨Step.stop _, C7_stop_cancels_pending_and_is_idempotent 0 (initState [])
    (stopApp (stopApp (initState []))) (Step.stop _)⟩

/-- C10: With the optional TID equal to the primary priority, `Send`
makes no `SetPriority` call on the socket; with the primary priority
configured as 0, `StartApplication` makes none either (and the attribute
setter ran before any socket existed), so over the whole lifecycle the
client never explicitly sets the socket's priority. -/
theorem C10_socket_priority_never_set (priority optionalTid : ℕ)
    (optionalTidPr v : ℚ) (draws : List ℚ)
    (heq : optionalTid = priority) (h0 : priority = 0) :
    sendSetPriorityCalls priority optionalTid optionalTidPr v = []
    ∧ startSetPriorityCalls priority = []
    ∧ attributeSetPriorityCalls false priority = []
    ∧ clientSetPriorityTrace priority optionalTid optionalTidPr draws = [] := by
  subst heq
  subst h0
  refine ⟨by simp [sendSetPriorityCalls], by simp [startSetPriorityCalls],
    rfl, ?_⟩
  simp [clientSetPriorityTrace, attributeSetPriorityCalls,
    startSetPriorityCalls, sendSetPriorityCalls]

/-- Witness for C10 at `priority = optionalTid = 0`, one send draw. -/
theorem C10_socket_priority_witness :
    (0 : ℕ) = 0 ∧ (0 : ℕ) = 0
    ∧ (sendSetPriorityCalls 0 0 1 (1 / 2) = []
    ∧ startSetPriorityCalls 0 = []
    ∧ attributeSetPriorityCalls false 0 = []
    ∧ clientSetPriorityTrace 0 0 1 [1 / 2] = []) :=
  ⟨rfl, rfl, C10_socket_priority_never_set 0 0 1 (1 / 2) [1 / 2] rfl rfl⟩

end BernoulliModel
